import Mathlib

/-!
Verification of the Python-NoAdmin installer (`install.py`).

Each definition below is a shallow embedding of the corresponding function in
`install.py`; line numbers in the doc comments refer to that file.  External
effects (the real filesystem, network, registry) are made explicit as
parameters and results, so that every definition is an executable Lean
function and the behaviour stated by the specification can be proved or
refuted by computation and ordinary induction.
-/

set_option maxRecDepth 4096

namespace PyNoAdmin

deriving instance DecidableEq for Except

/-! ## Configuration constants (install.py lines 35-54) -/

def DEFAULT_VERSION : String := "3.12.8"

def PBS_RELEASE_TAG : String := "20241206"

def PBS_BASE_URL : String :=
  "https://github.com/indygreg/python-build-standalone/releases/download"

def PYTHON_ORG_BASE : String := "https://www.python.org/ftp/python"

/-! ## Platform detection (install.py lines 117-148)

`platform.system().lower()` and `platform.machine().lower()` are reads of the
host environment; the embedded function takes their (already lowercased)
results as arguments and models the normalization and error logic of
lines 128-148. -/

/-- OS normalization, install.py lines 128-136. -/
def normalize_os (system : String) : Except String String :=
  if system = "darwin" then Except.ok "macos"
  else if system = "windows" then Except.ok "windows"
  else if system = "linux" then Except.ok "linux"
  else Except.error ("Unsupported operating system: " ++ system)

/-- Architecture normalization, install.py lines 138-146. -/
def normalize_arch (machine : String) : Except String String :=
  if machine = "x86_64" ∨ machine = "amd64" then Except.ok "x86_64"
  else if machine = "aarch64" ∨ machine = "arm64" then Except.ok "aarch64"
  else if machine = "i386" ∨ machine = "i686" then Except.ok "x86"
  else Except.error ("Unsupported architecture: " ++ machine)

/-- `get_platform_info`, install.py lines 117-148: the OS check runs first
(its `RuntimeError` is raised before the machine check is reached). -/
def get_platform_info (system machine : String) : Except String (String × String) :=
  match normalize_os system with
  | Except.error e => Except.error e
  | Except.ok os_name =>
    match normalize_arch machine with
    | Except.error e => Except.error e
    | Except.ok arch => Except.ok (os_name, arch)

/-- The `system` identifiers accepted by lines 129-134. -/
def knownSystems : List String := ["darwin", "windows", "linux"]

/-- The `machine` identifiers accepted by lines 139-144. -/
def knownMachines : List String :=
  ["x86_64", "amd64", "aarch64", "arm64", "i386", "i686"]

/-- Every supported `(system, machine)` input pair together with the canonical
`(os_name, arch)` output pair documented for it. -/
def platformTable : List ((String × String) × (String × String)) :=
  [ (("darwin", "x86_64"), ("macos", "x86_64")),
    (("darwin", "amd64"), ("macos", "x86_64")),
    (("darwin", "aarch64"), ("macos", "aarch64")),
    (("darwin", "arm64"), ("macos", "aarch64")),
    (("darwin", "i386"), ("macos", "x86")),
    (("darwin", "i686"), ("macos", "x86")),
    (("windows", "x86_64"), ("windows", "x86_64")),
    (("windows", "amd64"), ("windows", "x86_64")),
    (("windows", "aarch64"), ("windows", "aarch64")),
    (("windows", "arm64"), ("windows", "aarch64")),
    (("windows", "i386"), ("windows", "x86")),
    (("windows", "i686"), ("windows", "x86")),
    (("linux", "x86_64"), ("linux", "x86_64")),
    (("linux", "amd64"), ("linux", "x86_64")),
    (("linux", "aarch64"), ("linux", "aarch64")),
    (("linux", "arm64"), ("linux", "aarch64")),
    (("linux", "i386"), ("linux", "x86")),
    (("linux", "i686"), ("linux", "x86")) ]

/-! ## URL resolvers (install.py lines 161-185) -/

/-- `get_pbs_download_url`, install.py lines 161-171. -/
def get_pbs_download_url (version os_name arch : String) : Except String String :=
  match (if os_name = "macos" then Except.ok (arch ++ "-apple-darwin")
         else if os_name = "linux" then Except.ok (arch ++ "-unknown-linux-gnu")
         else Except.error ("PBS not available for " ++ os_name) :
         Except String String) with
  | Except.error e => Except.error e
  | Except.ok target =>
      Except.ok (PBS_BASE_URL ++ "/" ++ PBS_RELEASE_TAG ++ "/" ++
        ("cpython-" ++ version ++ "+" ++ PBS_RELEASE_TAG ++ "-" ++ target ++
          "-install_only.tar.gz"))

/-- `get_windows_embed_url`, install.py lines 174-185. -/
def get_windows_embed_url (version arch : String) : Except String String :=
  match (if arch = "x86_64" then Except.ok "amd64"
         else if arch = "x86" then Except.ok "win32"
         else if arch = "aarch64" then Except.ok "arm64"
         else Except.error ("Unknown Windows architecture: " ++ arch) :
         Except String String) with
  | Except.error e => Except.error e
  | Except.ok arch_suffix =>
      Except.ok (PYTHON_ORG_BASE ++ "/" ++ version ++ "/python-" ++ version ++
        "-embed-" ++ arch_suffix ++ ".zip")

/-- The Unix targets actually published for this release tag; used to state
the claim that the PBS resolver rejects pairs outside this set.  (This list
follows the specification's wording, not the code: the code never consults
any arch list in the PBS branch.) -/
def supportedUnixTargets : List (String × String) :=
  [("macos", "x86_64"), ("macos", "aarch64"), ("linux", "x86_64"), ("linux", "aarch64")]

/-! ## Helper lemmas about `normalize_os` / `normalize_arch` -/

theorem normalize_os_error_msg (system e : String)
    (h : normalize_os system = Except.error e) :
    e = "Unsupported operating system: " ++ system := by
  unfold normalize_os at h
  split at h
  · exact absurd h (by simp)
  · split at h
    · exact absurd h (by simp)
    · split at h
      · exact absurd h (by simp)
      · exact (Except.error.injEq _ _).mp h.symm

theorem normalize_arch_error_msg (machine e : String)
    (h : normalize_arch machine = Except.error e) :
    e = "Unsupported architecture: " ++ machine := by
  unfold normalize_arch at h
  split at h
  · exact absurd h (by simp)
  · split at h
    · exact absurd h (by simp)
    · split at h
      · exact absurd h (by simp)
      · exact (Except.error.injEq _ _).mp h.symm

/-- Claim C2: on every `(system, machine)` identifier pair in the known
enumeration (`darwin`/`windows`/`linux` crossed with `x86_64`, `amd64`,
`aarch64`, `arm64`, `i386`, `i686`), `get_platform_info` returns the
documented canonical pair, whose `os_name` lies in
`{windows, macos, linux}` and whose `arch` lies in `{x86_64, aarch64, x86}`;
on every pair outside that enumeration it fails with an unsupported-OS or
unsupported-architecture error. -/
theorem get_platform_info_spec :
    (∀ p ∈ platformTable, get_platform_info p.1.1 p.1.2 = Except.ok p.2 ∧
        p.2.1 ∈ (["windows", "macos", "linux"] : List String) ∧
        p.2.2 ∈ (["x86_64", "aarch64", "x86"] : List String)) ∧
    (∀ system machine : String,
        system ∉ knownSystems ∨ machine ∉ knownMachines →
        get_platform_info system machine =
          Except.error ("Unsupported operating system: " ++ system) ∨
        get_platform_info system machine =
          Except.error ("Unsupported architecture: " ++ machine)) := by
  constructor
  · decide
  · intro system machine h
    rcases h with h | h
    · left
      simp only [knownSystems, List.mem_cons, List.not_mem_nil, or_false,
        not_or] at h
      obtain ⟨h1, h2, h3⟩ := h
      simp [get_platform_info, normalize_os, h1, h2, h3]
    · simp only [knownMachines, List.mem_cons, List.not_mem_nil, or_false,
        not_or] at h
      obtain ⟨m1, m2, m3, m4, m5, m6⟩ := h
      unfold get_platform_info
      cases hos : normalize_os system with
      | error e =>
        left
        rw [normalize_os_error_msg system e hos]
      | ok os_name =>
        right
        simp [normalize_arch, m1, m2, m3, m4, m5, m6]

/-- Witness for C2: the claim evaluated at the concrete supported pair
`(darwin, arm64)` and at the concrete unsupported pair `(plan9, mips)`. -/
theorem get_platform_info_spec_witness :
    (get_platform_info "darwin" "arm64" = Except.ok ("macos", "aarch64") ∧
      ("macos" : String) ∈ (["windows", "macos", "linux"] : List String) ∧
      ("aarch64" : String) ∈ (["x86_64", "aarch64", "x86"] : List String)) ∧
    (get_platform_info "plan9" "mips" =
        Except.error ("Unsupported operating system: " ++ "plan9") ∨
      get_platform_info "plan9" "mips" =
        Except.error ("Unsupported architecture: " ++ "mips")) :=
  ⟨get_platform_info_spec.1 (("darwin", "arm64"), ("macos", "aarch64"))
      (by decide),
    get_platform_info_spec.2 "plan9" "mips" (Or.inl (by decide))⟩

/-- Claim C3: the URL resolvers are pure functions of
`(version, os_name, arch)` (in this embedding they are Lean functions of
exactly those arguments, so purity is by construction), they follow the
documented URL templates on each known branch, and for version `3.11.9` on
`(linux, x86_64)` the resolved URL contains
`cpython-3.11.9+20241206-x86_64-unknown-linux-gnu-install_only.tar.gz`. -/
theorem url_resolver_templates :
    (∀ version arch : String,
        get_pbs_download_url version "linux" arch =
          Except.ok (PBS_BASE_URL ++ "/" ++ PBS_RELEASE_TAG ++ "/" ++
            ("cpython-" ++ version ++ "+" ++ PBS_RELEASE_TAG ++ "-" ++
              (arch ++ "-unknown-linux-gnu") ++ "-install_only.tar.gz"))) ∧
    (∀ version arch : String,
        get_pbs_download_url version "macos" arch =
          Except.ok (PBS_BASE_URL ++ "/" ++ PBS_RELEASE_TAG ++ "/" ++
            ("cpython-" ++ version ++ "+" ++ PBS_RELEASE_TAG ++ "-" ++
              (arch ++ "-apple-darwin") ++ "-install_only.tar.gz"))) ∧
    (∀ version : String,
        get_windows_embed_url version "x86_64" =
          Except.ok (PYTHON_ORG_BASE ++ "/" ++ version ++ "/python-" ++
            version ++ "-embed-" ++ "amd64" ++ ".zip")) ∧
    (∀ version : String,
        get_windows_embed_url version "x86" =
          Except.ok (PYTHON_ORG_BASE ++ "/" ++ version ++ "/python-" ++
            version ++ "-embed-" ++ "win32" ++ ".zip")) ∧
    (∀ version : String,
        get_windows_embed_url version "aarch64" =
          Except.ok (PYTHON_ORG_BASE ++ "/" ++ version ++ "/python-" ++
            version ++ "-embed-" ++ "arm64" ++ ".zip")) ∧
    (∃ pre post : String,
        get_pbs_download_url "3.11.9" "linux" "x86_64" =
          Except.ok (pre ++
            "cpython-3.11.9+20241206-x86_64-unknown-linux-gnu-install_only.tar.gz"
            ++ post)) := by
  refine ⟨fun v a => rfl, fun v a => rfl, fun v => rfl, fun v => rfl,
    fun v => rfl, ⟨PBS_BASE_URL ++ "/" ++ PBS_RELEASE_TAG ++ "/", "", ?_⟩⟩
  decide

/-- Counterexample for C4 as stated: `("linux", "mips")` is outside the
supported Unix targets, yet `get_pbs_download_url` happily returns a URL for
it instead of failing — the PBS branch never validates `arch`. -/
theorem get_pbs_download_url_arch_unchecked :
    ("linux", "mips") ∉ supportedUnixTargets ∧
    get_pbs_download_url "3.11.9" "linux" "mips" =
      Except.ok
        "https://github.com/indygreg/python-build-standalone/releases/download/20241206/cpython-3.11.9+20241206-mips-unknown-linux-gnu-install_only.tar.gz" :=
  ⟨by decide, by decide⟩

/-- Claim C4 (amended): `get_pbs_download_url` fails with a descriptive error
exactly when `os_name` is neither `macos` nor `linux`; the `arch` argument is
never validated, and any `arch` string is interpolated into a returned URL
when `os_name` is known.  `get_windows_embed_url` fails with a descriptive
error for any `arch` outside its known suffix mapping
`{x86_64, x86, aarch64}`. -/
theorem url_resolver_error_paths :
    (∀ version os_name arch : String, os_name ≠ "macos" → os_name ≠ "linux" →
        get_pbs_download_url version os_name arch =
          Except.error ("PBS not available for " ++ os_name)) ∧
    (∀ version arch : String,
        ∃ url, get_pbs_download_url version "macos" arch = Except.ok url) ∧
    (∀ version arch : String,
        ∃ url, get_pbs_download_url version "linux" arch = Except.ok url) ∧
    (∀ version arch : String,
        arch ≠ "x86_64" → arch ≠ "x86" → arch ≠ "aarch64" →
        get_windows_embed_url version arch =
          Except.error ("Unknown Windows architecture: " ++ arch)) := by
  refine ⟨?_, fun v a => ⟨_, rfl⟩, fun v a => ⟨_, rfl⟩, ?_⟩
  · intro v os a h1 h2
    simp [get_pbs_download_url, h1, h2]
  · intro v a h1 h2 h3
    simp [get_windows_embed_url, h1, h2, h3]

/-- Witness for C4's amended theorem: concrete unsupported inputs on both
resolvers, with the hypotheses discharged at those inputs. -/
theorem url_resolver_error_paths_witness :
    get_pbs_download_url "3.12.8" "solaris" "x86_64" =
      Except.error ("PBS not available for " ++ "solaris") ∧
    get_windows_embed_url "3.12.8" "mips" =
      Except.error ("Unknown Windows architecture: " ++ "mips") :=
  ⟨url_resolver_error_paths.1 "3.12.8" "solaris" "x86_64" (by decide)
      (by decide),
    url_resolver_error_paths.2.2.2 "3.12.8" "mips" (by decide) (by decide)
      (by decide)⟩

/-! ## Substring machinery

Python's `pat in s` test and `str.replace` are modelled on `List Char`.
`occursB` is substring containment, `countSub` counts the positions at which
the pattern occurs (used to state "appears exactly once"), and `pyReplaceAux`
is `str.replace` (leftmost, non-overlapping), driven by a fuel argument so
that it is structurally recursive and computes by `rfl`/`decide`. -/

/-- Does `pat` occur as a contiguous substring of `s`?  (Python `pat in s`.) -/
def occursB (pat : List Char) : List Char → Bool
  | [] => pat.isEmpty
  | x :: rest => pat.isPrefixOf (x :: rest) || occursB pat rest

/-- Number of positions of `s` at which `pat` occurs (counting overlaps).
For nonempty `pat` this is the number of occurrences of `pat` in `s`. -/
def countSub (pat : List Char) : List Char → Nat
  | [] => 0
  | x :: rest => (if pat.isPrefixOf (x :: rest) then 1 else 0) + countSub pat rest

/-- Python `pat in s` on strings. -/
def strIn (pat s : String) : Bool := occursB pat.data s.data

/-- Fuel-driven core of Python `str.replace` for a nonempty pattern:
at each position, if `pat` matches, emit `rep` and continue after the match;
otherwise keep the character and move one position right. -/
def pyReplaceAux (pat rep : List Char) : Nat → List Char → List Char
  | _, [] => []
  | 0, s => s
  | fuel + 1, x :: rest =>
      if pat.isPrefixOf (x :: rest) ∧ pat ≠ [] then
        rep ++ pyReplaceAux pat rep fuel (List.drop pat.length (x :: rest))
      else
        x :: pyReplaceAux pat rep fuel rest

/-- Python `s.replace(pat, rep)` for nonempty `pat`. -/
def pyReplace (s pat rep : String) : String :=
  String.mk (pyReplaceAux pat.data rep.data s.data.length s.data)

theorem occursB_of_isPre (pat s : List Char) (h : pat <+: s) :
    occursB pat s = true := by
  cases s with
  | nil =>
    have : pat = [] := List.prefix_nil.mp h
    simp [occursB, this]
  | cons x rest =>
    simp only [occursB, Bool.or_eq_true, List.isPrefixOf_iff_prefix]
    exact Or.inl h

theorem occursB_append_right (pat a b : List Char) (h : occursB pat b = true) :
    occursB pat (a ++ b) = true := by
  induction a with
  | nil => simpa using h
  | cons x rest ih => simp [occursB, ih]

theorem occursB_append_left (pat a b : List Char) (h : occursB pat a = true) :
    occursB pat (a ++ b) = true := by
  induction a with
  | nil =>
    simp [occursB] at h
    subst h
    cases b with
    | nil => simp [occursB]
    | cons y t => simp [occursB, List.isPrefixOf]
  | cons x rest ih =>
    simp only [occursB, Bool.or_eq_true] at h
    rcases h with h | h
    · refine occursB_of_isPre _ _ ?_
      have h1 : pat <+: x :: rest := List.isPrefixOf_iff_prefix.mp h
      calc pat <+: x :: rest := h1
        _ <+: (x :: rest) ++ b := List.prefix_append _ _
    · have h2 := ih h
      simp [occursB, h2]

theorem countSub_eq_zero (pat s : List Char) (h : occursB pat s = false) :
    countSub pat s = 0 := by
  induction s with
  | nil => simp [countSub]
  | cons x rest ih =>
    simp only [occursB, Bool.or_eq_false_iff] at h
    simp [countSub, h.1, ih h.2]

/-- If `b` begins with a character not occurring in `pat`, then `pat` is a
prefix of `u ++ b` exactly when it is a prefix of `u`: no match can straddle
the boundary. -/
theorem isPre_append_boundary (pat u b : List Char) (c0 : Char)
    (hne : pat ≠ []) (hb : b.head? = some c0) (hc : c0 ∉ pat) :
    pat.isPrefixOf (u ++ b) = pat.isPrefixOf u := by
  by_cases h : pat <+: u
  · have h1 : pat <+: u ++ b := h.trans (List.prefix_append _ _)
    rw [List.isPrefixOf_iff_prefix.mpr h1, List.isPrefixOf_iff_prefix.mpr h]
  · rw [Bool.eq_false_iff.mpr (fun hh => h (List.isPrefixOf_iff_prefix.mp hh))]
    refine Bool.eq_false_iff.mpr (fun hh => ?_)
    have hpre : pat <+: u ++ b := List.isPrefixOf_iff_prefix.mp hh
    rcases List.prefix_or_prefix_of_prefix hpre (List.prefix_append u b) with
      h1 | h1
    · exact h h1
    · obtain ⟨t, ht⟩ := h1
      subst ht
      have ht2 : t <+: b := (List.prefix_append_right_inj u).mp hpre
      cases t with
      | nil => exact h (by simp)
      | cons y t2 =>
        have hy : y = c0 := by
          obtain ⟨r, hr⟩ := ht2
          rw [← hr] at hb
          simpa using hb
        exact hc (by
          subst hy
          exact List.mem_append.mpr (Or.inr (List.mem_cons_self _ _)))

/-- Splitting the occurrence count at a boundary whose right side begins
with a character not occurring in the pattern. -/
theorem countSub_append_boundary (pat a b : List Char) (c0 : Char)
    (hne : pat ≠ []) (hb : b.head? = some c0) (hc : c0 ∉ pat) :
    countSub pat (a ++ b) = countSub pat a + countSub pat b := by
  induction a with
  | nil => simp [countSub]
  | cons x rest ih =>
    have hcond := isPre_append_boundary pat (x :: rest) b c0 hne hb hc
    have hstep : countSub pat ((x :: rest) ++ b) =
        (if pat.isPrefixOf ((x :: rest) ++ b) then 1 else 0) +
          countSub pat (rest ++ b) := rfl
    have hstep2 : countSub pat (x :: rest) =
        (if pat.isPrefixOf (x :: rest) then 1 else 0) + countSub pat rest :=
      rfl
    rw [hstep, hstep2, hcond, ih]
    omega

theorem countSub_cons_of_head_notMem (pat b : List Char) (c0 : Char)
    (hne : pat ≠ []) (hc : c0 ∉ pat) :
    countSub pat (c0 :: b) = countSub pat b := by
  have : pat.isPrefixOf (c0 :: b) = false := by
    refine Bool.eq_false_iff.mpr (fun hh => ?_)
    have hpre : pat <+: c0 :: b := List.isPrefixOf_iff_prefix.mp hh
    obtain ⟨r, hr⟩ := hpre
    cases pat with
    | nil => exact hne rfl
    | cons p pt =>
      have hp : p = c0 := by
        have h2 := congrArg (fun l => List.head? l) hr
        simpa using h2
      exact hc (hp ▸ List.mem_cons_self _ _)
  simp [countSub, this]

theorem pyReplaceAux_no_occurrence (pat rep : List Char) :
    ∀ (fuel : Nat) (s : List Char), occursB pat s = false →
      pyReplaceAux pat rep fuel s = s := by
  intro fuel
  induction fuel with
  | zero => intro s h; cases s <;> rfl
  | succ f ih =>
    intro s h
    cases s with
    | nil => rfl
    | cons x rest =>
      simp only [occursB, Bool.or_eq_false_iff] at h
      rw [pyReplaceAux]
      rw [if_neg (by simp [h.1])]
      rw [ih rest h.2]

/-- `str.replace` on a string of the shape `a ++ pat ++ b`, where the head
character of `pat` does not occur in `a` and `pat` does not occur in `b`:
exactly the one occurrence in the middle is replaced. -/
theorem pyReplaceAux_single (pat rep b : List Char) (hd : Char)
    (tl : List Char) (hpat : pat = hd :: tl) (hb : occursB pat b = false) :
    ∀ (a : List Char) (fuel : Nat), hd ∉ a →
      (a ++ pat ++ b).length ≤ fuel →
      pyReplaceAux pat rep fuel (a ++ pat ++ b) = a ++ rep ++ b := by
  intro a
  induction a with
  | nil =>
    intro fuel _ hfuel
    subst hpat
    simp only [List.nil_append, List.length_append, List.length_cons] at hfuel
    cases fuel with
    | zero => omega
    | succ f =>
      show pyReplaceAux (hd :: tl) rep (f + 1) (hd :: (tl ++ b)) =
        [] ++ rep ++ b
      rw [pyReplaceAux]
      rw [if_pos ⟨List.isPrefixOf_iff_prefix.mpr
          (show hd :: tl <+: (hd :: tl) ++ b from List.prefix_append _ _),
          by simp⟩]
      have hdrop : List.drop (hd :: tl).length (hd :: (tl ++ b)) = b := by
        simp [List.drop_left]
      rw [hdrop, pyReplaceAux_no_occurrence _ _ _ _ hb]
      simp
  | cons x rest ih =>
    intro fuel hx hfuel
    have hx1 : hd ≠ x := fun e => hx (e ▸ List.mem_cons_self _ _)
    have hx2 : hd ∉ rest := fun e => hx (List.mem_cons_of_mem _ e)
    simp only [List.cons_append, List.length_cons] at hfuel
    cases fuel with
    | zero => omega
    | succ f =>
      show pyReplaceAux pat rep (f + 1) (x :: (rest ++ pat ++ b)) =
        (x :: rest) ++ rep ++ b
      rw [pyReplaceAux]
      rw [if_neg (by
        rintro ⟨hpre, -⟩
        have hp2 : pat <+: x :: (rest ++ pat ++ b) :=
          List.isPrefixOf_iff_prefix.mp hpre
        obtain ⟨r, hr⟩ := hp2
        rw [hpat] at hr
        have hdx : hd = x := by
          have h3 := congrArg (fun l => List.head? l) hr
          simpa using h3
        exact hx1 hdx)]
      rw [ih f hx2 (by omega)]
      simp

/-- Auxiliary for `splitOnChar`: `acc` holds the (reversed) current field. -/
def splitOnCharAux (sep : Char) : List Char → List Char → List (List Char)
  | [], acc => [acc.reverse]
  | c :: rest, acc =>
      if c = sep then acc.reverse :: splitOnCharAux sep rest []
      else splitOnCharAux sep rest (c :: acc)

/-- Python `s.split(sep)` for a one-character separator (the only separators
used by install.py are `"/"` and `";"`): `"a//b".split("/") = ["a","","b"]`,
`"".split("/") = [""]`. -/
def splitOnChar (sep : Char) (s : String) : List String :=
  (splitOnCharAux sep s.data []).map String.mk

/-- Python `s.endswith(pat)` (kernel-computable form). -/
def strEndsWith (s pat : String) : Bool := List.isSuffixOf pat.data s.data

/-! ## Archive extraction (install.py lines 233-256)

The filesystem is abstracted as the list of directories known to exist plus
the list of member paths that get extracted.  `dest.mkdir(parents=True,
exist_ok=True)` on line 237 runs before the extension dispatch, so `dest` is
recorded as existing in every branch, including the unsupported-format
error branch. -/

/-- Outcome of `extract_archive`: the directories guaranteed to exist after
the call, and either the (destination-relative) paths of the extracted
members or the raised error message. -/
structure ExtractOutcome where
  dirs : List String
  result : Except String (List String)
  deriving DecidableEq

/-- Member-name rewriting in the `strip_components > 0` loop, install.py
lines 246-250: a member whose path has more than `strip` slash-separated
segments is renamed by dropping the first `strip` segments and extracted;
any other member is skipped (the loop body's `if` has no `else`). -/
def stripName (strip : Nat) (name : String) : Option String :=
  let parts := splitOnChar '/' name
  if parts.length > strip then
    some (String.intercalate "/" (parts.drop strip))
  else none

/-- `extract_archive`, install.py lines 233-256.  `dirs` is the set of
directories existing before the call; `members` lists the archive's member
paths in order. -/
def extract_archive (dirs : List String) (archiveName dest : String)
    (members : List String) (strip : Nat) : ExtractOutcome :=
  let dirs2 := dest :: dirs
  if strEndsWith archiveName ".zip" then
    ⟨dirs2, Except.ok members⟩
  else if strEndsWith archiveName ".tar.gz" || strEndsWith archiveName ".tgz" then
    if strip > 0 then
      ⟨dirs2, Except.ok (members.filterMap (stripName strip))⟩
    else
      ⟨dirs2, Except.ok members⟩
  else
    ⟨dirs2, Except.error ("Unknown archive format: " ++ archiveName)⟩

theorem filterMap_stripName_length (strip : Nat) (members : List String) :
    (members.filterMap (stripName strip)).length =
      (members.filter (fun m => decide (strip < (splitOnChar '/' m).length))).length := by
  induction members with
  | nil => rfl
  | cons m rest ih =>
    by_cases h : strip < (splitOnChar '/' m).length
    · simp [stripName, h, ih]
    · simp [stripName, h, ih]

/-- Claim C1: extracting a tarball with `strip_components = strip > 0`
succeeds, rewrites each member path by dropping its first `strip`
slash-separated segments, silently skips every member with `strip` or fewer
segments (the output has exactly one entry per member with more than `strip`
segments), and on a tarball in which every member path has exactly `strip`
segments produces an empty destination: no member extracted, no error
raised, and the (created) destination directory exists. -/
theorem extract_archive_strip_spec (dirs : List String) (name dest : String)
    (members : List String) (strip : Nat)
    (hz : strEndsWith name ".zip" = false)
    (ht : strEndsWith name ".tar.gz" = true)
    (hs : 0 < strip) :
    (extract_archive dirs name dest members strip).result =
      Except.ok (members.filterMap (stripName strip)) ∧
    (∀ m ∈ members, strip < (splitOnChar '/' m).length →
        String.intercalate "/" ((splitOnChar '/' m).drop strip) ∈
          members.filterMap (stripName strip)) ∧
    (members.filterMap (stripName strip)).length =
      (members.filter (fun m => decide (strip < (splitOnChar '/' m).length))).length ∧
    ((∀ m ∈ members, (splitOnChar '/' m).length = strip) →
        (extract_archive dirs name dest members strip).result =
          Except.ok []) ∧
    dest ∈ (extract_archive dirs name dest members strip).dirs := by
  have hres : (extract_archive dirs name dest members strip).result =
      Except.ok (members.filterMap (stripName strip)) := by
    simp [extract_archive, hz, ht, hs]
  refine ⟨hres, ?_, ?_, ?_, ?_⟩
  · intro m hm hlen
    exact List.mem_filterMap.mpr ⟨m, hm, by simp [stripName, hlen]⟩
  · exact filterMap_stripName_length strip members
  · intro hall
    rw [hres]
    have : members.filterMap (stripName strip) = [] := by
      refine List.filterMap_eq_nil_iff.mpr (fun m hm => ?_)
      simp [stripName, hall m hm]
    rw [this]
  · simp [extract_archive, hz, ht, hs]

/-- Witness for C1: a concrete tarball whose members all have exactly one
segment yields an empty extraction with the destination directory created,
plus a two-segment member being rewritten. -/
theorem extract_archive_strip_spec_witness :
    (extract_archive [] "python.tar.gz" "/home/u/.python-nonadmin"
        ["python", "docs"] 1).result = Except.ok [] ∧
    "/home/u/.python-nonadmin" ∈
      (extract_archive [] "python.tar.gz" "/home/u/.python-nonadmin"
        ["python", "docs"] 1).dirs ∧
    (extract_archive [] "python.tar.gz" "/dest"
        ["python/bin/python3"] 1).result = Except.ok ["bin/python3"] := by
  have h1 := extract_archive_strip_spec [] "python.tar.gz"
    "/home/u/.python-nonadmin" ["python", "docs"] 1 (by decide) (by decide)
    (by decide)
  have h2 := extract_archive_strip_spec [] "python.tar.gz" "/dest"
    ["python/bin/python3"] 1 (by decide) (by decide) (by decide)
  exact ⟨h1.2.2.2.1 (by decide), h1.2.2.2.2, by rw [h2.1]; decide⟩

/-- Claim C8: for an archive whose name ends in none of `.zip`, `.tar.gz`,
`.tgz`, `extract_archive` fails with the explicit unsupported-format error,
and the destination directory — created before the extension dispatch —
still exists after the failed call. -/
theorem extract_archive_unknown_format (dirs : List String)
    (name dest : String) (members : List String) (strip : Nat)
    (hz : strEndsWith name ".zip" = false)
    (ht : strEndsWith name ".tar.gz" = false)
    (hg : strEndsWith name ".tgz" = false) :
    (extract_archive dirs name dest members strip).result =
      Except.error ("Unknown archive format: " ++ name) ∧
    dest ∈ (extract_archive dirs name dest members strip).dirs := by
  constructor <;> simp [extract_archive, hz, ht, hg]

/-- Witness for C8: a concrete `.tar.bz2` archive is rejected while the
destination directory exists afterwards. -/
theorem extract_archive_unknown_format_witness :
    (extract_archive [] "python.tar.bz2" "/dest" ["python"] 0).result =
      Except.error ("Unknown archive format: " ++ "python.tar.bz2") ∧
    "/dest" ∈ (extract_archive [] "python.tar.bz2" "/dest" ["python"] 0).dirs :=
  extract_archive_unknown_format [] "python.tar.bz2" "/dest" ["python"] 0
    (by decide) (by decide) (by decide)

/-! ## Unix PATH configuration (install.py lines 456-507)

The shell-profile file is modelled by its content (`Option String`, `none`
meaning the file does not exist).  `configure_path_unix` returns the file's
content after the call: line 483 checks `if marker in content` and returns
without writing; otherwise lines 490-504 append the marker-delimited block
in `"a"` (append) mode. -/

/-- The marker comment, install.py line 476. -/
def marker : String := "# Python-NoAdmin PATH"

/-- Text before `bin_dir` in the appended block (f-string on lines 491-501). -/
def blockPre (shell_name : String) : String :=
  if shell_name = "fish" then "\n# Python-NoAdmin PATH\nset -gx PATH \""
  else "\n# Python-NoAdmin PATH\nexport PATH=\""

/-- Text after `bin_dir` in the appended block (f-string on lines 491-501). -/
def blockPost (shell_name : String) : String :=
  if shell_name = "fish" then "\" $PATH\n# End Python-NoAdmin\n"
  else ":$PATH\"\n# End Python-NoAdmin\n"

/-- The whole block appended by install.py lines 490-504. -/
def pathBlock (shell_name bin_dir : String) : String :=
  blockPre shell_name ++ bin_dir ++ blockPost shell_name

/-- `configure_path_unix`, install.py lines 456-507, as a transformation of
the selected profile file's content. -/
def configure_path_unix (shell_name bin_dir : String)
    (content : Option String) : String :=
  match content with
  | some c => if strIn marker c then c else c ++ pathBlock shell_name bin_dir
  | none => pathBlock shell_name bin_dir

theorem marker_in_pathBlock (shell bin : String) :
    occursB marker.data (pathBlock shell bin).data = true := by
  simp only [pathBlock, String.data_append]
  refine occursB_append_left _ _ _ (occursB_append_left _ _ _ ?_)
  by_cases h : shell = "fish"
  · simp only [blockPre, if_pos h]; decide
  · simp only [blockPre, if_neg h]; decide

theorem strIn_marker_append_block (shell bin c : String) :
    strIn marker (c ++ pathBlock shell bin) = true := by
  simp only [strIn, String.data_append]
  exact occursB_append_right _ _ _ (marker_in_pathBlock shell bin)

/-- Occurrence count of `pat` in a three-part text `pre ++ bin ++ post`
where `pre` ends in a character outside `pat`, `post` starts with a
character outside `pat`, and `pat` does not occur in `bin`: only the
occurrences inside `pre` and inside `post` remain. -/
theorem countSub_three (pat preInit binD postD : List Char) (q c0 : Char)
    (hne : pat ≠ []) (hq : q ∉ pat) (hpost : postD.head? = some c0)
    (hc0 : c0 ∉ pat) (hbin : countSub pat binD = 0) :
    countSub pat ((preInit ++ [q]) ++ binD ++ postD) =
      countSub pat preInit + countSub pat postD := by
  rw [List.append_assoc, List.append_assoc, List.singleton_append]
  rw [countSub_append_boundary pat preInit (q :: (binD ++ postD)) q hne rfl hq]
  rw [countSub_cons_of_head_notMem pat (binD ++ postD) q hne hq]
  rw [countSub_append_boundary pat binD postD c0 hne hpost hc0, hbin]
  omega

theorem countSub_marker_pathBlock (shell bin : String)
    (hbin : strIn marker bin = false) :
    countSub marker.data (pathBlock shell bin).data = 1 := by
  have hne : marker.data ≠ [] := by decide
  have hquote : ('\x22' : Char) ∉ marker.data := by decide
  simp only [strIn] at hbin
  have hbin0 : countSub marker.data bin.data = 0 :=
    countSub_eq_zero _ _ hbin
  unfold pathBlock blockPre blockPost
  by_cases h : shell = "fish"
  · rw [if_pos h, if_pos h]
    rw [show ("\n# Python-NoAdmin PATH\nset -gx PATH \"" : String) =
      "\n# Python-NoAdmin PATH\nset -gx PATH " ++ "\"" from rfl]
    rw [String.data_append, String.data_append, String.data_append]
    rw [show ("\"" : String).data = ['\x22'] from rfl]
    rw [countSub_three marker.data
      ("\n# Python-NoAdmin PATH\nset -gx PATH " : String).data bin.data
      ("\" $PATH\n# End Python-NoAdmin\n" : String).data '\x22' '\x22' hne
      hquote rfl hquote hbin0]
    decide
  · rw [if_neg h, if_neg h]
    rw [show ("\n# Python-NoAdmin PATH\nexport PATH=\"" : String) =
      "\n# Python-NoAdmin PATH\nexport PATH=" ++ "\"" from rfl]
    rw [String.data_append, String.data_append, String.data_append]
    rw [show ("\"" : String).data = ['\x22'] from rfl]
    rw [countSub_three marker.data
      ("\n# Python-NoAdmin PATH\nexport PATH=" : String).data bin.data
      (":$PATH\"\n# End Python-NoAdmin\n" : String).data '\x22' ':' hne
      hquote rfl (by decide) hbin0]
    decide

/-- Claim C5: the Unix PATH configurator is idempotent.  If the profile
content already contains the marker it is returned unmodified; otherwise
exactly the marker-delimited block is appended (prior content is preserved
as a prefix, nothing rewritten or removed); a second run returns its input
unchanged; and after running twice on marker-free content the marker occurs
exactly once (hence the export block, appended only together with its
marker, is not duplicated). -/
theorem configure_path_unix_idempotent (shell bin c : String) :
    (strIn marker c = true → configure_path_unix shell bin (some c) = c) ∧
    (strIn marker c = false →
      configure_path_unix shell bin (some c) = c ++ pathBlock shell bin) ∧
    configure_path_unix shell bin
        (some (configure_path_unix shell bin (some c))) =
      configure_path_unix shell bin (some c) ∧
    (strIn marker c = false → strIn marker bin = false →
      countSub marker.data
          (configure_path_unix shell bin
            (some (configure_path_unix shell bin (some c)))).data = 1) := by
  have happly : ∀ s : String, strIn marker s = true →
      configure_path_unix shell bin (some s) = s := by
    intro s hs
    simp [configure_path_unix, hs]
  have happend : strIn marker c = false →
      configure_path_unix shell bin (some c) = c ++ pathBlock shell bin := by
    intro hc
    simp [configure_path_unix, hc]
  have hidem : configure_path_unix shell bin
      (some (configure_path_unix shell bin (some c))) =
      configure_path_unix shell bin (some c) := by
    by_cases hc : strIn marker c = true
    · rw [happly c hc, happly c hc]
    · rw [happend (Bool.eq_false_iff.mpr hc)]
      exact happly _ (strIn_marker_append_block shell bin c)
  refine ⟨happly c, happend, hidem, ?_⟩
  intro hc hbin
  rw [hidem, happend hc, String.data_append]
  rw [countSub_append_boundary marker.data _ _ '\n' (by decide) ?_ (by decide)]
  · rw [countSub_eq_zero marker.data c.data (by simpa [strIn] using hc)]
    rw [countSub_marker_pathBlock shell bin hbin]
  · by_cases h : shell = "fish"
    · simp only [pathBlock, blockPre, if_pos h, String.data_append]; rfl
    · simp only [pathBlock, blockPre, if_neg h, String.data_append]; rfl

/-- Witness for C5: concrete runs on a marker-free profile (`bash` shell,
concrete `bin` directory), discharging every hypothesis concretely. -/
theorem configure_path_unix_idempotent_witness :
    (configure_path_unix "bash" "/home/u/.python-nonadmin/bin"
        (some "# Python-NoAdmin PATH\nexport PATH=1\n") =
      "# Python-NoAdmin PATH\nexport PATH=1\n") ∧
    configure_path_unix "bash" "/home/u/.python-nonadmin/bin"
        (some "export A=1\n") =
      "export A=1\n" ++ pathBlock "bash" "/home/u/.python-nonadmin/bin" ∧
    countSub marker.data
        (configure_path_unix "bash" "/home/u/.python-nonadmin/bin"
          (some (configure_path_unix "bash" "/home/u/.python-nonadmin/bin"
            (some "export A=1\n")))).data = 1 := by
  have h1 := configure_path_unix_idempotent "bash"
    "/home/u/.python-nonadmin/bin" "# Python-NoAdmin PATH\nexport PATH=1\n"
  have h2 := configure_path_unix_idempotent "bash"
    "/home/u/.python-nonadmin/bin" "export A=1\n"
  exact ⟨h1.1 (by decide), h2.2.1 (by decide),
    h2.2.2.2 (by decide) (by decide)⟩

/-! ## Windows `._pth` patching (install.py lines 283-298)

The `python<major><minor>._pth` file patch applied by `install_windows`
after extraction, as a transformation of the file's content (the file is
assumed to exist, matching the `pth_file.exists()` guard). -/

/-- The `._pth` patch, install.py lines 288-298: uncomment `#import site`
if present (Python `str.replace` replaces every occurrence); otherwise
append an `import site` line if the directive is absent in any form;
otherwise leave the content unchanged. -/
def patch_pth_content (content : String) : String :=
  if strIn "#import site" content then
    pyReplace content "#import site" "import site"
  else if strIn "import site" content = false then
    content ++ "\nimport site\n"
  else content

theorem occursB_tail (x : Char) (p s : List Char)
    (h : occursB (x :: p) s = true) : occursB p s = true := by
  induction s with
  | nil => simp [occursB, List.isEmpty] at h
  | cons y rest ih =>
    simp only [occursB, Bool.or_eq_true] at h ⊢
    rcases h with h | h
    · have hpre : (x :: p) <+: y :: rest := List.isPrefixOf_iff_prefix.mp h
      obtain ⟨r, hr⟩ := hpre
      have hpr : p ++ r = rest := by
        simpa using congrArg List.tail hr
      exact Or.inr (occursB_of_isPre p rest ⟨r, hpr⟩)
    · exact Or.inr (ih h)

/-- Claim C6: the `._pth` patch (a) turns the unique commented-out
`#import site` directive into `import site` (stated for contents
`a ++ "#import site" ++ b` where `a` is free of `#` and the directive does
not recur in `b`); (b) appends an `import site` line when the directive is
absent in any form; (c) leaves content with an uncommented directive (and
no commented one) unchanged; and (d) on a concrete embeddable-package
`._pth` content performs exactly the documented uncommenting. -/
theorem patch_pth_spec :
    (∀ a b : String, ('#' ∉ a.data) → strIn "#import site" b = false →
        patch_pth_content (a ++ "#import site" ++ b) =
          a ++ "import site" ++ b) ∧
    (∀ c : String, strIn "import site" c = false →
        patch_pth_content c = c ++ "\nimport site\n") ∧
    (∀ c : String, strIn "#import site" c = false →
        strIn "import site" c = true → patch_pth_content c = c) ∧
    patch_pth_content "python312.zip\n.\n\n#import site\n" =
      "python312.zip\n.\n\nimport site\n" := by
  have harm1 : ∀ a b : String, ('#' ∉ a.data) →
      strIn "#import site" b = false →
      patch_pth_content (a ++ "#import site" ++ b) =
        a ++ "import site" ++ b := by
    intro a b ha hb
    have hin : strIn "#import site" (a ++ "#import site" ++ b) = true := by
      simp only [strIn, String.data_append]
      exact occursB_append_left _ _ _
        (occursB_append_right _ _ _
          (occursB_of_isPre _ _ (List.prefix_refl _)))
    unfold patch_pth_content
    rw [if_pos hin]
    apply String.ext
    have hdata : (a ++ "#import site" ++ b).data =
        a.data ++ ("#import site" : String).data ++ b.data := by
      rw [String.data_append, String.data_append]
    show pyReplaceAux ("#import site" : String).data
        ("import site" : String).data
        (a ++ "#import site" ++ b).data.length
        (a ++ "#import site" ++ b).data =
      (a ++ "import site" ++ b).data
    rw [hdata, String.data_append, String.data_append]
    exact pyReplaceAux_single ("#import site" : String).data
      ("import site" : String).data b.data '#'
      ("import site" : String).data rfl hb a.data _ ha (Nat.le_refl _)
  have hcontra : ∀ c : String, strIn "import site" c = false →
      strIn "#import site" c = false := by
    intro c hc
    refine Bool.eq_false_iff.mpr (fun hh => ?_)
    have h2 : occursB ("import site" : String).data c.data = true :=
      occursB_tail '#' ("import site" : String).data c.data hh
    have hc2 : occursB ("import site" : String).data c.data = false := hc
    rw [hc2] at h2
    exact Bool.false_ne_true h2
  refine ⟨harm1, ?_, ?_, ?_⟩
  · intro c hc
    unfold patch_pth_content
    rw [if_neg (by simp [hcontra c hc]), if_pos hc]
  · intro c h1 h2
    unfold patch_pth_content
    rw [if_neg (by simp [h1]), if_neg (by simp [h2])]
  · decide

/-- Witness for C6: the three arms at concrete `._pth` contents. -/
theorem patch_pth_spec_witness :
    patch_pth_content ("py\n" ++ "#import site" ++ "\n") =
      "py\n" ++ "import site" ++ "\n" ∧
    patch_pth_content "python312.zip\n.\n" =
      "python312.zip\n.\n" ++ "\nimport site\n" ∧
    patch_pth_content "import site\n" = "import site\n" :=
  ⟨patch_pth_spec.1 "py\n" "\n" (by decide) (by decide),
    patch_pth_spec.2.1 "python312.zip\n.\n" (by decide),
    patch_pth_spec.2.2.1 "import site\n" (by decide) (by decide)⟩

/-! ## Windows PATH configuration (install.py lines 410-454)

The registry is modelled by the current user `PATH` value
(`Option String`, `none` meaning the value is absent, which line 429-430
treats as the empty string).  The function returns `some newValue` when the
code writes the registry (line 443) and `none` when it does not. -/

/-- `current_path.split(";") if current_path else []`, install.py line 433:
the empty string yields `[]`, not `[""]`. -/
def winPathParts (current : String) : List String :=
  if current = "" then [] else splitOnChar ';' current

/-- The `for path_to_add in paths_to_add` loop of install.py lines 436-439:
each path is prepended (`insert(0, ...)`) exactly when it is not already an
entry, setting the modified flag. -/
def addPathsLoop : List String → List String × Bool → List String × Bool
  | [], acc => acc
  | p :: rest, acc =>
      addPathsLoop rest (if p ∈ acc.1 then acc else (p :: acc.1, true))

/-- `configure_path_windows`, install.py lines 410-454 (the registry
read/write happy path; any registry failure degrades to printed manual
instructions and is outside this model). -/
def configure_path_windows (install_dir : String)
    (current_path : Option String) : Option String :=
  let scripts_dir := install_dir ++ "\\Scripts"
  let path_parts := winPathParts (current_path.getD "")
  let res := addPathsLoop [install_dir, scripts_dir] (path_parts, false)
  if res.2 then some (String.intercalate ";" res.1) else none

theorem scripts_ne_install (s : String) : s ++ "\\Scripts" ≠ s := by
  intro h
  have h2 := congrArg String.length h
  rw [String.length_append] at h2
  have h3 : ("\\Scripts" : String).length = 8 := rfl
  omega

/-- Claim C7: the Windows PATH configurator splits the current registry
value (absence treated as the empty string) on `;`, prepends the install
directory and its `Scripts` subdirectory exactly when each is not already
an entry — newly added entries sit in front of all existing ones — and
writes back (returns `some`) iff at least one entry was added; otherwise no
registry write occurs (`none`). -/
theorem configure_path_windows_spec (install : String) (cur : Option String) :
    (install ∈ winPathParts (cur.getD "") →
      install ++ "\\Scripts" ∈ winPathParts (cur.getD "") →
      configure_path_windows install cur = none) ∧
    (install ∉ winPathParts (cur.getD "") →
      install ++ "\\Scripts" ∉ winPathParts (cur.getD "") →
      configure_path_windows install cur =
        some (String.intercalate ";"
          ((install ++ "\\Scripts") :: install :: winPathParts (cur.getD "")))) ∧
    (install ∈ winPathParts (cur.getD "") →
      install ++ "\\Scripts" ∉ winPathParts (cur.getD "") →
      configure_path_windows install cur =
        some (String.intercalate ";"
          ((install ++ "\\Scripts") :: winPathParts (cur.getD "")))) ∧
    (install ∉ winPathParts (cur.getD "") →
      install ++ "\\Scripts" ∈ winPathParts (cur.getD "") →
      configure_path_windows install cur =
        some (String.intercalate ";" (install :: winPathParts (cur.getD "")))) ∧
    configure_path_windows install none =
      configure_path_windows install (some "") := by
  refine ⟨?_, ?_, ?_, ?_, rfl⟩
  · intro h1 h2
    simp [configure_path_windows, addPathsLoop, h1, h2]
  · intro h1 h2
    simp [configure_path_windows, addPathsLoop, h1, h2,
      scripts_ne_install install]
  · intro h1 h2
    simp [configure_path_windows, addPathsLoop, h1, h2]
  · intro h1 h2
    simp [configure_path_windows, addPathsLoop, h1, h2]

/-- Witness for C7: concrete registry values exercising the no-write case
and the both-added case. -/
theorem configure_path_windows_spec_witness :
    configure_path_windows "C:\\u\\py"
        (some "C:\\u\\py;C:\\u\\py\\Scripts;C:\\w") = none ∧
    configure_path_windows "C:\\u\\py" (some "C:\\w") =
      some (String.intercalate ";"
        (("C:\\u\\py" ++ "\\Scripts") :: "C:\\u\\py" ::
          winPathParts ((some "C:\\w").getD ""))) := by
  have h1 := configure_path_windows_spec "C:\\u\\py"
    (some "C:\\u\\py;C:\\u\\py\\Scripts;C:\\w")
  have h2 := configure_path_windows_spec "C:\\u\\py" (some "C:\\w")
  exact ⟨h1.1 (by decide) (by decide), h2.2.1 (by decide) (by decide)⟩

/-! ## Uninstall (install.py lines 599-632)

`uninstall` calls `get_platform_info` first (line 603), then checks whether
the install directory exists, and only prompts (and possibly deletes) when
it does.  The result records `(deleted, prompted, message)`. -/

/-- `uninstall`, install.py lines 599-632.  `dirExists` is whether the
install directory exists; `response` is what `input()` would return. -/
def uninstall (system machine installDir : String) (dirExists : Bool)
    (response : String) : Except String (Bool × Bool × String) :=
  match get_platform_info system machine with
  | Except.error e => Except.error e
  | Except.ok _ =>
    if !dirExists then
      Except.ok (false, false,
        "Nothing to uninstall. Directory not found: " ++ installDir)
    else
      let r := response.trim.toLower
      if r = "y" ∨ r = "yes" then
        Except.ok (true, true, "Removed: " ++ installDir)
      else
        Except.ok (false, true, "Uninstallation cancelled")

/-- Claim C9: when the install directory does not exist, `uninstall` deletes
nothing (`deleted = false`), shows no confirmation prompt
(`prompted = false`), reports that there is nothing to uninstall, and
returns normally (an `Except.ok` result), for every possible user
response. -/
theorem uninstall_absent_noop (system machine installDir response : String)
    (pr : String × String)
    (h : get_platform_info system machine = Except.ok pr) :
    uninstall system machine installDir false response =
      Except.ok (false, false,
        "Nothing to uninstall. Directory not found: " ++ installDir) := by
  unfold uninstall
  rw [h]
  rfl

/-- Witness for C9: a concrete host whose platform resolves. -/
theorem uninstall_absent_noop_witness :
    uninstall "linux" "x86_64" "/home/u/.python-nonadmin" false "y" =
      Except.ok (false, false,
        "Nothing to uninstall. Directory not found: " ++
          "/home/u/.python-nonadmin") :=
  uninstall_absent_noop "linux" "x86_64" "/home/u/.python-nonadmin" "y"
    ("linux", "x86_64") (by decide)

/-! ## Install top level (install.py lines 514-596)

Modelled as the sequence of effects `install` performs plus its exit code.
The already-installed guard is lines 527-545; the `else` trace below is the
successful main pipeline (download, conditional removal of a pre-existing
directory, extraction, the OS-specific fixup, pip setup, PATH
configuration). -/

/-- One externally visible effect of `install`. -/
inductive Eff where
  | warn
  | queryVersion
  | download
  | removeExisting
  | extract
  | patchPth
  | chmodBins
  | pipSetup
  | configurePath
  deriving DecidableEq

/-- Does the effect mutate the filesystem/registry (or fetch data to disk)?
`warn` only prints; `queryVersion` runs the existing interpreter with
`--version`, a read-only query. -/
def Eff.isMutation : Eff → Bool
  | .warn => false
  | .queryVersion => false
  | _ => true

/-- `install`, install.py lines 514-596, as `(effect trace, exit code)`.
When the install directory exists and `force` is not set (line 527), the
function warns, optionally queries the existing interpreter's version
(lines 537-544), and returns; otherwise the successful main pipeline
runs. -/
def install (os_name : String) (dirExists force pyExeExists : Bool) :
    List Eff × Nat :=
  if dirExists && !force then
    ((if pyExeExists then [Eff.warn, Eff.queryVersion] else [Eff.warn]), 0)
  else
    ([Eff.download] ++ (if dirExists then [Eff.removeExisting] else []) ++
      [Eff.extract] ++
      (if os_name = "windows" then [Eff.patchPth] else [Eff.chmodBins]) ++
      [Eff.pipSetup, Eff.configurePath], 0)

/-- Claim C10: with the install directory present and `force = false`,
`install` performs no download, no extraction and no mutating effect at
all: it warns, at most queries the existing interpreter's version
(read-only), and returns normally with exit code 0. -/
theorem install_already_installed_noop (os_name : String)
    (pyExeExists : Bool) :
    (install os_name true false pyExeExists).2 = 0 ∧
    (∀ e ∈ (install os_name true false pyExeExists).1,
        e.isMutation = false) ∧
    Eff.warn ∈ (install os_name true false pyExeExists).1 ∧
    Eff.download ∉ (install os_name true false pyExeExists).1 ∧
    Eff.extract ∉ (install os_name true false pyExeExists).1 ∧
    (pyExeExists = true →
      Eff.queryVersion ∈ (install os_name true false pyExeExists).1) := by
  cases pyExeExists <;> simp [install, Eff.isMutation]

/-- Witness for C10: concrete already-installed run on Linux with a present
interpreter; the version-query hypothesis is discharged concretely. -/
theorem install_already_installed_noop_witness :
    (install "linux" true false true).2 = 0 ∧
    Eff.queryVersion ∈ (install "linux" true false true).1 :=
  ⟨(install_already_installed_noop "linux" true).1,
    (install_already_installed_noop "linux" true).2.2.2.2.2 rfl⟩

end PyNoAdmin
